import Mathlib

/-!
Verification development for the gramex DataHandler
(gramex/handlers/datahandler.py).

The Python handler is shallowly embedded below: each definition mirrors one
function (or one cohesive block) of the source file.  Regular expressions are
embedded by implementing the search/backtracking semantics of the two concrete
patterns the source compiles; SQL execution, which lives in the sqlalchemy
backend rather than in this repository, is modelled from the spec where a
claim needs row-level semantics (those definitions carry an explicit
"Modelled from the spec" note).
-/

deriving instance DecidableEq for Except

namespace DataHandler

/-! ## Parameter resolution (DataHandler.getq, lines 102-106) -/

/-- Association-list lookup, mirroring a Python dict .get(key). -/
def alistGet {β : Type} (d : List (String × β)) (k : String) : Option β :=
  (d.find? (fun p => p.1 == k)).map (fun p => p.2)

/-- Python truthiness of an optional list: None and the empty list are falsy. -/
def pyTruthy {α : Type} : Option (List α) → Bool
  | none => false
  | some [] => false
  | some (_ :: _) => true

/-- Python "a or b" specialised to optional lists. -/
def pyOr {α : Type} (a b : Option (List α)) : Option (List α) :=
  if pyTruthy a then a else b

/-- DataHandler.getq: qconfig override, then request arguments, then qconfig
default, then the caller-supplied fallback, first truthy value wins. -/
def getq (queryCfg defaultCfg : List (String × List String))
    (arguments : String → List String) (key : String)
    (default_value : Option (List String)) : Option (List String) :=
  pyOr (alistGet queryCfg key)
    (pyOr (some (arguments key))
      (pyOr (alistGet defaultCfg key) default_value))

/-! ## Condition grammar (DataHandler._sqlalchemy_wheres, lines 118-144)

The pattern is r'([^=><~!]+)([=><~!]{1,2})([\s\S]+)' used with re.search:
a maximal run of non-operator characters, then one or two operator
characters (two taken greedily when a value still remains), then a
non-empty value. -/

def isOpChar (ch : Char) : Bool :=
  ch == '=' || ch == '>' || ch == '<' || ch == '~' || ch == '!'

/-- One anchored attempt of the where-pattern at the start of the input. -/
def whMatchAnchored (s : List Char) : Option (List Char × List Char × List Char) :=
  let g1 := s.takeWhile (fun ch => !(isOpChar ch))
  if g1.isEmpty then none
  else
    match s.drop g1.length with
    | [] => none
    | [_] => none
    | c1 :: c2 :: rest2 =>
      if isOpChar c2 && !(rest2.isEmpty) then some (g1, [c1, c2], rest2)
      else some (g1, [c1], c2 :: rest2)

/-- re.search semantics for the where-pattern: leftmost startable match. -/
def whSearch : List Char → Option (List Char × List Char × List Char)
  | [] => none
  | c :: cs =>
    match whMatchAnchored (c :: cs) with
    | some r => some r
    | none => whSearch cs

/-- A compiled single condition, one constructor per sqlalchemy expression
the source builds (ilike is case-insensitive, notlike is the negation of
the case-sensitive LIKE). -/
inductive WhereCond : Type where
  | eq (col val : String)
  | ge (col val : String)
  | le (col val : String)
  | gt (col val : String)
  | lt (col val : String)
  | ne (col val : String)
  | ilike (col pat : String)
  | notlike (col pat : String)
deriving DecidableEq, Repr

/-- Operator dispatch of _sqlalchemy_wheres: the if/elif chain on lines
127-142.  An operator string matched by the pattern but absent from the
chain appends nothing. -/
def whDispatch (col oper val : String) : Option WhereCond :=
  if oper = "==" || oper = "=" then some (.eq col val)
  else if oper = ">=" then some (.ge col val)
  else if oper = "<=" then some (.le col val)
  else if oper = ">" then some (.gt col val)
  else if oper = "<" then some (.lt col val)
  else if oper = "!=" then some (.ne col val)
  else if oper = "~" then some (.ilike col ("%" ++ val ++ "%"))
  else if oper = "!~" then some (.notlike col ("%" ++ val ++ "%"))
  else none

/-- Parse one where expression into a condition, or none when the source
would append nothing for it. -/
def parseWhereChars (s : List Char) : Option WhereCond :=
  match whSearch s with
  | none => none
  | some (col, oper, val) =>
    whDispatch (String.mk col) (String.mk oper) (String.mk val)

def parseWhere (w : String) : Option WhereCond :=
  parseWhereChars w.data

/-- _sqlalchemy_wheres over a clause: a non-matching expression is skipped
(line 123-124); a matching one first resolves table.c[col] (KeyError when
the column is unknown) and then goes through the operator chain. -/
def sqlalchemy_wheres (colsT : List String) : List String → Except String (List WhereCond)
  | [] => .ok []
  | w :: ws =>
    match whSearch w.data with
    | none => sqlalchemy_wheres colsT ws
    | some (col, oper, val) =>
      let colS := String.mk col
      if colsT.contains colS then
        match whDispatch colS (String.mk oper) (String.mk val) with
        | some cond => (sqlalchemy_wheres colsT ws).map (fun l => cond :: l)
        | none => sqlalchemy_wheres colsT ws
      else .error ("KeyError: " ++ colS)

/-! ## Backend evaluation of conditions (modelled) -/

def startsWithChars : List Char → List Char → Bool
  | _, [] => true
  | [], _ :: _ => false
  | h :: t, n :: m => (h == n) && startsWithChars t m

def containsChars (needle : List Char) : List Char → Bool
  | [] => startsWithChars [] needle
  | c :: t => startsWithChars (c :: t) needle || containsChars needle t

def lowerChars (l : List Char) : List Char := l.map Char.toLower

/-- Modelled from the spec: SQL LIKE matching for the percent-wrapped
patterns this handler builds ("case-insensitive substring match (wrapped
as %value%)"); a pattern of the shape %inner% matches any string
containing inner, any other pattern is compared literally.  The backend
executing LIKE is sqlalchemy, outside this repository. -/
def likeMatch (s pat : List Char) : Bool :=
  if pat.head? == some '%' && pat.getLast? == some '%' && decide (2 ≤ pat.length) then
    containsChars ((pat.drop 1).dropLast) s
  else s == pat

/-- Modelled from the spec: row-level evaluation of one compiled condition
by the relational backend (outside this repository).  Values compare as
strings; ilike folds case on both sides, notlike is the negation of the
case-sensitive match, as in the SQL dialects defining ILIKE/NOT LIKE. -/
def evalCond (r : List (String × String)) : WhereCond → Bool
  | .eq c v => alistGet r c == some v
  | .ne c v => alistGet r c != some v
  | .ge c v => match alistGet r c with | some x => decide (v ≤ x) | none => false
  | .le c v => match alistGet r c with | some x => decide (x ≤ v) | none => false
  | .gt c v => match alistGet r c with | some x => decide (v < x) | none => false
  | .lt c v => match alistGet r c with | some x => decide (x < v) | none => false
  | .ilike c p =>
    match alistGet r c with
    | some x => likeMatch (lowerChars x.data) (lowerChars p.data)
    | none => false
  | .notlike c p =>
    match alistGet r c with
    | some x => !(likeMatch x.data p.data)
    | none => false

/-! ## Aggregate grammar (DataHandler._sqlalchemy, lines 152-167)

The pattern is r'([^:]+):([aA-zZ]+)\(([^:]+)\)' used with re.search: a
maximal non-colon run, a literal colon, a maximal run over the character
class (letters plus the few symbols the range A-z sweeps in), a literal
opening parenthesis, a non-empty non-colon run, a closing parenthesis. -/

/-- Membership in the regex class [aA-zZ]: the literal a, the range A-z,
the literal Z. -/
def isFnChar (ch : Char) : Bool :=
  ch == 'a' || (decide ('A' ≤ ch) && decide (ch ≤ 'z')) || ch == 'Z'

/-- Index of the last closing parenthesis in a list, if any. -/
def lastParenIdx : List Char → Option Nat
  | [] => none
  | c :: cs =>
    match lastParenIdx cs with
    | some i => some (i + 1)
    | none => if c == ')' then some 0 else none

/-- One anchored attempt of the aggregate-pattern at the start of the
input.  The column group is greedy, so the final parenthesis of the
pattern lands on the last closing parenthesis of the non-colon run. -/
def aggMatchAnchored (s : List Char) : Option (List Char × List Char × List Char) :=
  let g1 := s.takeWhile (fun ch => !(ch == ':'))
  if g1.isEmpty then none
  else
    match s.drop g1.length with
    | [] => none
    | c :: r2 =>
      if c == ':' then
        let g2 := r2.takeWhile isFnChar
        if g2.isEmpty then none
        else
          match r2.drop g2.length with
          | [] => none
          | c3 :: r4 =>
            if c3 == '(' then
              let run := r4.takeWhile (fun ch => !(ch == ':'))
              match lastParenIdx run with
              | some k => if 1 ≤ k then some (g1, g2, run.take k) else none
              | none => none
            else none
      else none

/-- re.search semantics for the aggregate pattern. -/
def aggSearch : List Char → Option (List Char × List Char × List Char)
  | [] => none
  | c :: cs =>
    match aggMatchAnchored (c :: cs) with
    | some r => some r
    | none => aggSearch cs

/-- Parse one aggregate expression into (alias, function, column). -/
def parseAgg (s : String) : Option (String × String × String) :=
  (aggSearch s.data).map (fun p => (String.mk p.1, String.mk p.2.1, String.mk p.2.2))

/-! ## Query compilation (DataHandler._sqlalchemy, lines 146-197) -/

/-- One projected column of the compiled select: a plain table column, a
labelled aggregate-function column, or the labelled count-distinct column
built for nunique. -/
inductive SACol : Type where
  | plain (name : String)
  | aggFn (fn : String) (col : String) (label : String)
  | aggCountDistinct (col : String) (label : String)
deriving DecidableEq, Repr

/-- The .key sqlalchemy exposes on a select column: the column name for a
plain column, the label for a labelled one. -/
def saKey : SACol → String
  | .plain n => n
  | .aggFn _ _ l => l
  | .aggCountDistinct _ l => l

/-- The keys of the safuncs dict on lines 155-157. -/
def safuncs : List String := ["min", "max", "sum", "count", "mean", "nunique"]

/-- table.c[c] for each group (or plain select) column; KeyError when the
column is not in the table. -/
def compileGroups (colsT : List String) : List String → Except String (List SACol)
  | [] => .ok []
  | c :: rest =>
    if colsT.contains c then (compileGroups colsT rest).map (fun l => SACol.plain c :: l)
    else .error ("KeyError: " ++ c)

/-- Lines 164-167 for one matched aggregate: nunique builds
count(distinct col) under the alias; any other name is looked up in
safuncs (KeyError when absent) and applied to table.c[col]. -/
def compileAggMatch (colsT : List String) (name oper col : String) : Except String SACol :=
  if oper = "nunique" then
    if colsT.contains col then .ok (SACol.aggCountDistinct col name)
    else .error ("KeyError: " ++ col)
  else if safuncs.contains oper then
    if colsT.contains col then .ok (SACol.aggFn oper col name)
    else .error ("KeyError: " ++ col)
  else .error ("KeyError: " ++ oper)

/-- Lines 159-167: aggregate expressions that do not match the pattern are
skipped, matched ones are compiled in order, a failed lookup aborts. -/
def compileAggList (colsT : List String) : List String → Except String (List SACol)
  | [] => .ok []
  | a :: rest =>
    match aggSearch a.data with
    | none => compileAggList colsT rest
    | some (name, oper, col) =>
      match compileAggMatch colsT (String.mk name) (String.mk oper) (String.mk col) with
      | .error e => .error e
      | .ok sc => (compileAggList colsT rest).map (fun l => sc :: l)

/-- Python str.partition on the first colon: (before, after), the second
component empty when there is no colon. -/
def splitAtFirst (ch : Char) : List Char → Option (List Char × List Char)
  | [] => none
  | c :: t =>
    if c == ch then some ([], t)
    else
      match splitAtFirst ch t with
      | some (a, b) => some (c :: a, b)
      | none => none

def partitionColon (s : String) : String × String :=
  match splitAtFirst ':' s.data with
  | some (a, b) => (String.mk a, String.mk b)
  | none => (s, "")

/-- Lines 184-190: each sort expression is partitioned on the first colon,
and order.get(odr, sa.asc) descends exactly when the suffix is "desc".
The Bool is true for descending. -/
def compileSorts (sl : Option (List String)) : List (String × Bool) :=
  (sl.getD []).map (fun s =>
    let p := partitionColon s
    (p.1, p.2 == "desc"))

/-- Python truthiness of an optional string. -/
def pyTruthyStr : Option String → Bool
  | none => false
  | some s => !(s == "")

/-- The compiled select query: projection, where conjunction, group-by
columns, order-by entries, offset and limit as applied. -/
structure SAQuery : Type where
  projection : List SACol
  whereConds : List WhereCond
  groupByCols : List String
  orderByCols : List (String × Bool)
  offsetVal : Option String
  limitVal : Option String
deriving DecidableEq, Repr

/-- DataHandler._sqlalchemy, lines 146-196: wheres are compiled first when
truthy; with truthy groups and aggs the projection is group columns plus
compiled aggregates, post-filtered by select names when selects is truthy,
grouping by all group columns; otherwise the projection is the selects
(or the whole table); sorts, offset and limit are appended. -/
def sqlalchemy_compile (colsT : List String)
    (_selects _wheres _groups _aggs : Option (List String))
    (_offset _limit : Option String) (_sorts : Option (List String)) :
    Except String SAQuery :=
  match (if pyTruthy _wheres then sqlalchemy_wheres colsT (_wheres.getD []) else .ok []) with
  | .error e => .error e
  | .ok conds =>
    let base : Except String (List SACol × List String) :=
      if pyTruthy _groups && pyTruthy _aggs then
        match compileGroups colsT (_groups.getD []) with
        | .error e => .error e
        | .ok grps =>
          match compileAggList colsT (_aggs.getD []) with
          | .error e => .error e
          | .ok aggcols =>
            let aggselects := grps ++ aggcols
            let proj :=
              if pyTruthy _selects then
                aggselects.filter (fun c => (_selects.getD []).contains (saKey c))
              else aggselects
            .ok (proj, _groups.getD [])
      else
        if pyTruthy _selects then
          match compileGroups colsT (_selects.getD []) with
          | .error e => .error e
          | .ok ps => .ok (ps, [])
        else .ok (colsT.map SACol.plain, [])
    match base with
    | .error e => .error e
    | .ok pg =>
      .ok { projection := pg.1, whereConds := conds, groupByCols := pg.2,
            orderByCols := compileSorts _sorts,
            offsetVal := if pyTruthyStr _offset then _offset else none,
            limitVal := if pyTruthyStr _limit then _limit else none }

/-! ## Mutations (lines 199-225) over a concrete table state -/

structure Table : Type where
  cols : List String
  rows : List (List (String × String))
deriving DecidableEq, Repr

/-- Python dict insertion: replace the value of an existing key in place,
append a fresh key at the end. -/
def dictSet (d : List (String × String)) (k v : String) : List (String × String) :=
  match d with
  | [] => [(k, v)]
  | p :: t => if p.1 = k then (k, v) :: t else p :: dictSet t k v

/-- dict(x.split('=', 1) for x in vals): each entry splits on its first
equals sign (a ValueError when one is missing), later duplicates of a key
overwrite earlier ones. -/
def buildContent (acc : List (String × String)) : List String → Option (List (String × String))
  | [] => some acc
  | x :: xs =>
    match splitAtFirst '=' x.data with
    | none => none
    | some (k, v) => buildContent (dictSet acc (String.mk k) (String.mk v)) xs

/-- The posttransform loop of _sqlalchemy_post: each configured transform
is applied in turn and the content becomes the last yielded value. -/
def applyPosttransforms
    (ts : List (List (String × String) → List (List (String × String))))
    (content : List (String × String)) : List (String × String) :=
  ts.foldl (fun c f => (f c).foldl (fun _ v => v) c) content

/-- UPDATE ... VALUES(content) on one row. -/
def applyContentUpdate (content : List (String × String))
    (r : List (String × String)) : List (String × String) :=
  content.foldl (fun row p => dictSet row p.1 p.2) r

/-- _sqlalchemy_post, lines 199-206: build the row dict, run the
posttransforms, insert one row.  The first component is the error of a
raised exception, in which case the table is returned unchanged. -/
def sqlalchemy_post
    (ts : List (List (String × String) → List (List (String × String))))
    (_vals : List String) (t : Table) : Option String × Table :=
  match buildContent [] _vals with
  | none => (some "ValueError: dictionary update sequence has length 1", t)
  | some content0 =>
    let content := applyPosttransforms ts content0
    if content.all (fun p => t.cols.contains p.1) then
      (none, ⟨t.cols, t.rows ++ [content]⟩)
    else (some "CompileError: unknown column", t)

/-- _sqlalchemy_delete, lines 208-214: an untruthy where clause raises
HTTPError(NOT_FOUND) before any backend work; otherwise the conjunction of
the compiled conditions filters the rows to delete. -/
def sqlalchemy_delete (_wheres : Option (List String)) (t : Table) :
    Option String × Table :=
  if pyTruthy _wheres = false then
    (some "WHERE is required in DELETE method", t)
  else
    match sqlalchemy_wheres t.cols (_wheres.getD []) with
    | .error e => (some e, t)
    | .ok conds =>
      (none, ⟨t.cols, t.rows.filter (fun r => !(conds.all (evalCond r)))⟩)

/-- _sqlalchemy_put, lines 216-225: untruthy vals, then untruthy wheres,
raise before any backend work; otherwise each row matching the conjunction
is updated with the value dict. -/
def sqlalchemy_put (_vals : List String) (_wheres : Option (List String))
    (t : Table) : Option String × Table :=
  if _vals = [] then (some "VALS is required in PUT method", t)
  else if pyTruthy _wheres = false then (some "WHERE is required in PUT method", t)
  else
    match buildContent [] _vals with
    | none => (some "ValueError: dictionary update sequence has length 1", t)
    | some content =>
      match sqlalchemy_wheres t.cols (_wheres.getD []) with
      | .error e => (some e, t)
      | .ok conds =>
        if content.all (fun p => t.cols.contains p.1) then
          (none, ⟨t.cols,
            t.rows.map (fun r => if conds.all (evalCond r) then applyContentUpdate content r else r)⟩)
        else (some "CompileError: unknown column", t)

/-! ## Connection cache (module dict drivers, lines 14, 108-112) -/

/-- The process-wide drivers dict: configuration key to engine handle,
plus a counter standing for sa.create_engine producing a fresh engine. -/
structure DriverCache : Type where
  entries : List (String × Nat)
  nextId : Nat
deriving DecidableEq, Repr

/-- _sqlalchemy_gettable, lines 109-112: create and store an engine when
the configuration key is absent, then hand back the stored engine. -/
def sqlalchemy_getengine (key : String) (c : DriverCache) : Nat × DriverCache :=
  match alistGet c.entries key with
  | some e => (e, c)
  | none => (c.nextId, ⟨c.entries ++ [(key, c.nextId)], c.nextId + 1⟩)

/-! ## Driver dispatch (setup lines 57-62, method guards lines 342-362) -/

inductive DriverMethod : Type where
  | sqlalchemy
  | blaze
deriving DecidableEq, Repr

/-- setup, lines 57-62: only sqlalchemy and blaze are accepted. -/
def setupDriver (driver : Option String) : Except String DriverMethod :=
  match driver with
  | some "sqlalchemy" => .ok .sqlalchemy
  | some "blaze" => .ok .blaze
  | _ => .error "driver is not supported yet."

def unsupportedDriver (d : String) : String :=
  "driver=" ++ d ++ " is not supported yet."

/-- post, lines 342-348: any driver other than sqlalchemy raises before
the mutation is submitted. -/
def postHandler (driver_name : String)
    (ts : List (List (String × String) → List (List (String × String))))
    (vals : List String) (t : Table) : Option String × Table :=
  if driver_name ≠ "sqlalchemy" then (some (unsupportedDriver driver_name), t)
  else sqlalchemy_post ts vals t

/-- delete, lines 350-357. -/
def deleteHandler (driver_name : String) (wheres : Option (List String))
    (t : Table) : Option String × Table :=
  if driver_name ≠ "sqlalchemy" then (some (unsupportedDriver driver_name), t)
  else sqlalchemy_delete wheres t

/-- put, lines 359-366. -/
def putHandler (driver_name : String) (vals : List String)
    (wheres : Option (List String)) (t : Table) : Option String × Table :=
  if driver_name ≠ "sqlalchemy" then (some (unsupportedDriver driver_name), t)
  else sqlalchemy_put vals wheres t

/-! ## Rendering (DataHandler._render, lines 305-323) -/

inductive RenderFormat : Type where
  | json
  | csv
  | html
deriving DecidableEq, Repr

/-- Lines 308-319: membership tests in the fixed order json, csv, html;
anything else raises NotImplementedError. -/
def renderFormat (formats : List String) : Except String RenderFormat :=
  if formats.contains "json" then .ok .json
  else if formats.contains "csv" then .ok .csv
  else if formats.contains "html" then .ok .html
  else .error "format is not supported yet."

/-- The headers set by the chosen format branch. -/
def formatHeaders : RenderFormat → List (String × String)
  | .json => [("Content-Type", "application/json")]
  | .csv => [("Content-Type", "text/csv"),
             ("Content-Disposition", "attachment;filename=file.csv")]
  | .html => [("Content-Type", "text/html")]

/-- Lines 321-323: each configured header is set last, replacing any
header of the same name. -/
def applyHeaderOverrides (overrides : List (String × String))
    (hs : List (String × String)) : List (String × String) :=
  overrides.foldl (fun d p => dictSet d p.1 p.2) hs

/-- _render: choose the format, set its headers, then apply the configured
overrides. -/
def render (formats : List String) (overrides : List (String × String)) :
    Except String (List (String × String)) :=
  match renderFormat formats with
  | .error e => .error e
  | .ok f => .ok (applyHeaderOverrides overrides (formatHeaders f))

/-- Modelled from the spec: the selection rule the spec states for the
renderer, "take the first recognized format token from the resolved
format clause", for comparison with renderFormat above. -/
def firstRecognizedFormat (formats : List String) : Option String :=
  formats.find? (fun f => f == "json" || f == "csv" || f == "html")

/-! ## Helper lemmas -/

theorem pyTruthy_some_iff {α : Type} (l : List α) : pyTruthy (some l) = true ↔ l ≠ [] := by
  cases l <;> simp [pyTruthy]

theorem alistGet_cons {β : Type} (a : String × β) (t : List (String × β)) (k : String) :
    alistGet (a :: t) k = if a.1 == k then some a.2 else alistGet t k := by
  cases h : a.1 == k <;> simp [alistGet, List.find?_cons, h]

theorem alistGet_append_single_of_none {β : Type} (l : List (String × β)) (k : String) (v : β)
    (h : alistGet l k = none) : alistGet (l ++ [(k, v)]) k = some v := by
  induction l with
  | nil => simp [alistGet_cons]
  | cons a t ih =>
    rw [alistGet_cons] at h
    cases hb : a.1 == k
    · rw [hb] at h
      simp only [Bool.false_eq_true, if_false] at h
      rw [List.cons_append, alistGet_cons, hb]
      simpa using ih h
    · rw [hb] at h
      simp at h

theorem not_mem_keys_of_alistGet_none {β : Type} (l : List (String × β)) (k : String)
    (h : alistGet l k = none) : k ∉ l.map Prod.fst := by
  induction l with
  | nil => simp
  | cons a t ih =>
    rw [alistGet_cons] at h
    cases hb : a.1 == k
    · rw [hb] at h
      simp only [Bool.false_eq_true, if_false] at h
      simp only [List.map_cons, List.mem_cons]
      rintro (rfl | hmem)
      · simp at hb
      · exact ih h hmem
    · rw [hb] at h
      simp at h

theorem nodup_append_single {α : Type} {l : List α} {a : α}
    (h : l.Nodup) (ha : a ∉ l) : (l ++ [a]).Nodup := by
  refine h.append (List.nodup_singleton a) ?_
  intro x hx hmem
  rw [List.mem_singleton] at hmem
  subst hmem
  exact ha hx

theorem alistGet_dictSet_self (d : List (String × String)) (k v : String) :
    alistGet (dictSet d k v) k = some v := by
  induction d with
  | nil => simp [dictSet, alistGet_cons]
  | cons p t ih =>
    by_cases h : p.1 = k
    · simp [dictSet, h, alistGet_cons]
    · simp only [dictSet, if_neg h]
      rw [alistGet_cons]
      simp [h, ih]

/-! ## Claim theorems -/

/-- Claim C1: getq resolves a clause to the first non-empty value among the
configured override, the request-supplied values, the configured default
and the caller-supplied fallback; a non-empty configured override is
returned verbatim whatever the request supplies. -/
theorem getq_resolution_order (q d : List (String × List String))
    (args : String → List String) (key : String) (fb : Option (List String)) :
    (pyTruthy (alistGet q key) = true → getq q d args key fb = alistGet q key) ∧
    (pyTruthy (alistGet q key) = false → args key ≠ [] →
      getq q d args key fb = some (args key)) ∧
    (pyTruthy (alistGet q key) = false → args key = [] →
      pyTruthy (alistGet d key) = true → getq q d args key fb = alistGet d key) ∧
    (pyTruthy (alistGet q key) = false → args key = [] →
      pyTruthy (alistGet d key) = false → getq q d args key fb = fb) := by
  unfold getq pyOr
  refine ⟨fun h1 => ?_, fun h1 h2 => ?_, fun h1 h2 h3 => ?_, fun h1 h2 h3 => ?_⟩
  · rw [if_pos h1]
  · rw [if_neg (by simp [h1]), if_pos ((pyTruthy_some_iff (args key)).2 h2)]
  · rw [if_neg (by simp [h1]), h2, if_neg (by simp [pyTruthy]), if_pos h3]
  · rw [if_neg (by simp [h1]), h2, if_neg (by simp [pyTruthy]), if_neg (by simp [h3])]

theorem getq_resolution_order_witness :
    getq [("where", ["a=1"])] [("where", ["b=2"])] (fun _ => ["c=3"]) "where"
      (some ["d=4"]) = some ["a=1"] ∧
    getq [] [("where", ["b=2"])] (fun _ => ["c=3"]) "where" (some ["d=4"]) = some ["c=3"] ∧
    getq [] [("where", ["b=2"])] (fun _ => []) "where" (some ["d=4"]) = some ["b=2"] ∧
    getq [] [] (fun _ => []) "where" (some ["d=4"]) = some ["d=4"] := by
  refine ⟨?_, ?_, ?_, ?_⟩
  · exact (getq_resolution_order [("where", ["a=1"])] [("where", ["b=2"])]
      (fun _ => ["c=3"]) "where" (some ["d=4"])).1 (by decide)
  · exact (getq_resolution_order [] [("where", ["b=2"])]
      (fun _ => ["c=3"]) "where" (some ["d=4"])).2.1 (by decide) (by decide)
  · exact (getq_resolution_order [] [("where", ["b=2"])]
      (fun _ => []) "where" (some ["d=4"])).2.2.1 (by decide) rfl (by decide)
  · exact (getq_resolution_order [] [] (fun _ => []) "where"
      (some ["d=4"])).2.2.2 (by decide) rfl (by decide)

/-- Claim C4: delete with an untruthy where clause, and put with empty
values or an untruthy where clause, raise the corresponding
HTTPError(NOT_FOUND) before mutating, leaving the table unchanged. -/
theorem mutation_precondition_errors (t : Table) (w : Option (List String))
    (vals : List String) :
    (pyTruthy w = false →
      sqlalchemy_delete w t = (some "WHERE is required in DELETE method", t)) ∧
    sqlalchemy_put [] w t = (some "VALS is required in PUT method", t) ∧
    (vals ≠ [] → pyTruthy w = false →
      sqlalchemy_put vals w t = (some "WHERE is required in PUT method", t)) := by
  refine ⟨fun h => ?_, ?_, fun hv h => ?_⟩
  · unfold sqlalchemy_delete
    rw [if_pos h]
  · unfold sqlalchemy_put
    rw [if_pos rfl]
  · unfold sqlalchemy_put
    rw [if_neg hv, if_pos h]

theorem mutation_precondition_errors_witness :
    sqlalchemy_delete (some []) ⟨["age"], [[("age", "1")]]⟩
      = (some "WHERE is required in DELETE method", ⟨["age"], [[("age", "1")]]⟩) ∧
    sqlalchemy_put [] (some ["age=1"]) ⟨["age"], [[("age", "1")]]⟩
      = (some "VALS is required in PUT method", ⟨["age"], [[("age", "1")]]⟩) ∧
    sqlalchemy_put ["age=2"] none ⟨["age"], [[("age", "1")]]⟩
      = (some "WHERE is required in PUT method", ⟨["age"], [[("age", "1")]]⟩) := by
  refine ⟨?_, ?_, ?_⟩
  · exact (mutation_precondition_errors ⟨["age"], [[("age", "1")]]⟩ (some []) []).1 rfl
  · exact (mutation_precondition_errors ⟨["age"], [[("age", "1")]]⟩ (some ["age=1"]) []).2.1
  · exact (mutation_precondition_errors ⟨["age"], [[("age", "1")]]⟩ none ["age=2"]).2.2
      (by decide) rfl

/-- Claim C10: with any configured driver other than sqlalchemy, the POST,
DELETE and PUT handlers raise NotImplementedError before touching the
table, while setup still accepts blaze (whose read path serves GET). -/
theorem nonsql_mutation_guard (d : String)
    (ts : List (List (String × String) → List (List (String × String))))
    (vals : List String) (w : Option (List String)) (t : Table)
    (hd : d ≠ "sqlalchemy") :
    postHandler d ts vals t = (some (unsupportedDriver d), t) ∧
    deleteHandler d w t = (some (unsupportedDriver d), t) ∧
    putHandler d vals w t = (some (unsupportedDriver d), t) ∧
    setupDriver (some "blaze") = .ok .blaze ∧
    setupDriver (some "sqlalchemy") = .ok .sqlalchemy := by
  refine ⟨?_, ?_, ?_, rfl, rfl⟩
  · unfold postHandler
    rw [if_pos hd]
  · unfold deleteHandler
    rw [if_pos hd]
  · unfold putHandler
    rw [if_pos hd]

theorem nonsql_mutation_guard_witness :
    postHandler "blaze" [] ["age=1"] ⟨["age"], []⟩
      = (some "driver=blaze is not supported yet.", ⟨["age"], []⟩) ∧
    deleteHandler "blaze" (some ["age=1"]) ⟨["age"], []⟩
      = (some "driver=blaze is not supported yet.", ⟨["age"], []⟩) ∧
    putHandler "blaze" ["age=1"] (some ["age=1"]) ⟨["age"], []⟩
      = (some "driver=blaze is not supported yet.", ⟨["age"], []⟩) := by
  have h := nonsql_mutation_guard "blaze" [] ["age=1"] (some ["age=1"]) ⟨["age"], []⟩
    (by decide)
  exact ⟨h.1, h.2.1, h.2.2.1⟩

/-- Claim C7: a where expression the pattern does not match is dropped
silently; the clause compiles exactly as if the unparsable expressions
were absent, so the remaining expressions still reach the query and the
request does not fail. -/
theorem unparsable_where_dropped (colsT : List String) (ws : List String) :
    sqlalchemy_wheres colsT ws
      = sqlalchemy_wheres colsT (ws.filter (fun w => (whSearch w.data).isSome)) ∧
    sqlalchemy_wheres ["age", "name"] ["garbage", "age>30"]
      = .ok [WhereCond.gt "age" "30"] := by
  constructor
  · induction ws with
    | nil => rfl
    | cons w t ih =>
      cases hw : whSearch w.data with
      | none => simpa [sqlalchemy_wheres, List.filter_cons, hw] using ih
      | some p =>
        obtain ⟨col, oper, val⟩ := p
        simp only [sqlalchemy_wheres, List.filter_cons, hw, Option.isSome_some, if_pos, ih]
  · decide

/-- Claim C6: the drivers cache keeps at most one engine per configuration
key: a hit returns the stored engine without touching the cache, a miss
stores the fresh engine under the key, a repeated call returns the very
same handle with the cache unchanged, and distinctness of keys is
preserved. -/
theorem driver_cache_single_handle (key : String) (c : DriverCache) :
    (∀ e, alistGet c.entries key = some e → sqlalchemy_getengine key c = (e, c)) ∧
    (alistGet c.entries key = none →
      alistGet ((sqlalchemy_getengine key c).2).entries key
        = some (sqlalchemy_getengine key c).1) ∧
    sqlalchemy_getengine key (sqlalchemy_getengine key c).2
      = ((sqlalchemy_getengine key c).1, (sqlalchemy_getengine key c).2) ∧
    ((c.entries.map Prod.fst).Nodup →
      (((sqlalchemy_getengine key c).2).entries.map Prod.fst).Nodup) := by
  refine ⟨fun e he => ?_, fun h => ?_, ?_, fun hn => ?_⟩
  · unfold sqlalchemy_getengine
    rw [he]
  · have h2 := alistGet_append_single_of_none c.entries key c.nextId h
    simp [sqlalchemy_getengine, h, h2]
  · cases hc : alistGet c.entries key with
    | some e => simp [sqlalchemy_getengine, hc]
    | none =>
      have h2 := alistGet_append_single_of_none c.entries key c.nextId hc
      simp [sqlalchemy_getengine, hc, h2]
  · cases hc : alistGet c.entries key with
    | some e => simpa [sqlalchemy_getengine, hc] using hn
    | none =>
      have hk := not_mem_keys_of_alistGet_none c.entries key hc
      simp only [sqlalchemy_getengine, hc, List.map_append, List.map_cons, List.map_nil]
      exact nodup_append_single hn hk

theorem driver_cache_single_handle_witness :
    sqlalchemy_getengine "cfg" ⟨[("cfg", 5)], 7⟩ = (5, ⟨[("cfg", 5)], 7⟩) ∧
    alistGet ((sqlalchemy_getengine "cfg" ⟨[], 0⟩).2).entries "cfg"
      = some (sqlalchemy_getengine "cfg" ⟨[], 0⟩).1 ∧
    (((sqlalchemy_getengine "cfg" ⟨[], 0⟩).2).entries.map Prod.fst).Nodup := by
  have h1 := driver_cache_single_handle "cfg" ⟨[("cfg", 5)], 7⟩
  have h2 := driver_cache_single_handle "cfg" ⟨[], 0⟩
  exact ⟨h1.1 5 rfl, h2.2.1 rfl, h2.2.2.2 (by decide)⟩

/-- Claim C5, counterexample: the render branch order is json before csv,
so a resolved format clause listing csv first still renders json: the
claim's rule of taking the first recognized token of the clause would
pick csv here. -/
theorem render_priority_counterexample :
    renderFormat ["csv", "json"] = .ok .json ∧
    firstRecognizedFormat ["csv", "json"] = some "csv" ∧
    render ["csv", "json"] [] = .ok [("Content-Type", "application/json")] := by
  decide

/-- Claim C5, amended: render tests for the recognized formats in the
fixed priority order json, csv, html over the whole resolved format
clause (not in the clause's own token order), defaulting to json when
nothing supplies a format; json sets Content-Type application/json, csv
sets text/csv plus the attachment disposition, html sets text/html, an
unrecognized clause raises, and configured header overrides are applied
last and win on conflict. -/
theorem render_amended (fs : List String) (ov hs : List (String × String))
    (k v : String) (q d : List (String × List String))
    (args : String → List String) :
    (pyTruthy (alistGet q "format") = false → args "format" = [] →
      pyTruthy (alistGet d "format") = false →
      getq q d args "format" (some ["json"]) = some ["json"]) ∧
    (fs.contains "json" = true →
      render fs ov = .ok (applyHeaderOverrides ov [("Content-Type", "application/json")])) ∧
    (fs.contains "json" = false → fs.contains "csv" = true →
      render fs ov = .ok (applyHeaderOverrides ov
        [("Content-Type", "text/csv"),
         ("Content-Disposition", "attachment;filename=file.csv")])) ∧
    (fs.contains "json" = false → fs.contains "csv" = false →
      fs.contains "html" = true →
      render fs ov = .ok (applyHeaderOverrides ov [("Content-Type", "text/html")])) ∧
    (fs.contains "json" = false → fs.contains "csv" = false →
      fs.contains "html" = false → render fs ov = .error "format is not supported yet.") ∧
    alistGet (applyHeaderOverrides (ov ++ [(k, v)]) hs) k = some v := by
  refine ⟨fun h1 h2 h3 => ?_, fun h1 => ?_, fun h1 h2 => ?_,
    fun h1 h2 h3 => ?_, fun h1 h2 h3 => ?_, ?_⟩
  · unfold getq pyOr
    rw [if_neg (by simp [h1]), h2, if_neg (by simp [pyTruthy]), if_neg (by simp [h3])]
  · unfold render renderFormat
    rw [if_pos h1]
    rfl
  · unfold render renderFormat
    rw [if_neg (by rw [h1]; decide), if_pos h2]
    rfl
  · unfold render renderFormat
    rw [if_neg (by rw [h1]; decide), if_neg (by rw [h2]; decide), if_pos h3]
    rfl
  · unfold render renderFormat
    rw [if_neg (by rw [h1]; decide), if_neg (by rw [h2]; decide),
      if_neg (by rw [h3]; decide)]
  · unfold applyHeaderOverrides
    rw [List.foldl_append]
    exact alistGet_dictSet_self _ k v

theorem render_amended_witness :
    getq [] [] (fun _ => []) "format" (some ["json"]) = some ["json"] ∧
    render ["json"] [] = .ok [("Content-Type", "application/json")] ∧
    render ["csv"] [] = .ok [("Content-Type", "text/csv"),
      ("Content-Disposition", "attachment;filename=file.csv")] ∧
    render ["html"] [] = .ok [("Content-Type", "text/html")] ∧
    render ["xml"] [] = .error "format is not supported yet." ∧
    alistGet (applyHeaderOverrides [("Content-Type", "text/plain")]
      [("Content-Type", "text/csv")]) "Content-Type" = some "text/plain" := by
  refine ⟨?_, ?_, ?_, ?_, ?_, ?_⟩
  · exact (render_amended [] [] [] "" "" [] [] (fun _ => [])).1 rfl rfl rfl
  · exact (render_amended ["json"] [] [] "" "" [] [] (fun _ => [])).2.1 (by decide)
  · exact (render_amended ["csv"] [] [] "" "" [] [] (fun _ => [])).2.2.1
      (by decide) (by decide)
  · exact (render_amended ["html"] [] [] "" "" [] [] (fun _ => [])).2.2.2.1
      (by decide) (by decide) (by decide)
  · exact (render_amended ["xml"] [] [] "" "" [] [] (fun _ => [])).2.2.2.2.1
      (by decide) (by decide) (by decide)
  · exact ((render_amended [] [] [("Content-Type", "text/csv")] "Content-Type"
      "text/plain" [] [] (fun _ => [])).2.2.2.2.2).trans (by decide)

/-! ## Grammar lemmas for the where pattern -/

theorem takeWhile_stop {p : Char → Bool} {c : List Char} {o1 : Char} {r : List Char}
    (hc : ∀ x ∈ c, p x = true) (ho : p o1 = false) :
    (c ++ o1 :: r).takeWhile p = c := by
  rw [List.takeWhile_append_of_pos hc]
  simp [List.takeWhile_cons, ho]

theorem takeWhile_all {p : Char → Bool} {l : List Char}
    (h : ∀ x ∈ l, p x = true) : l.takeWhile p = l := by
  induction l with
  | nil => rfl
  | cons a t ih =>
    rw [List.takeWhile_cons, if_pos (h a (by simp))]
    rw [ih (fun x hx => h x (by simp [hx]))]

theorem whMatchAnchored_two {c : List Char} {o1 o2 : Char} {v : List Char}
    (hc : c ≠ []) (hcf : ∀ x ∈ c, isOpChar x = false)
    (ho1 : isOpChar o1 = true) (ho2 : isOpChar o2 = true) (hv : v ≠ []) :
    whMatchAnchored (c ++ o1 :: o2 :: v) = some (c, [o1, o2], v) := by
  have h1 : (c ++ o1 :: o2 :: v).takeWhile (fun ch => !(isOpChar ch)) = c :=
    takeWhile_stop (fun x hx => by simp [hcf x hx]) (by simp [ho1])
  have hce : c.isEmpty = false := by
    cases c with
    | nil => exact absurd rfl hc
    | cons a t => rfl
  have hve : v.isEmpty = false := by
    cases v with
    | nil => exact absurd rfl hv
    | cons a t => rfl
  unfold whMatchAnchored
  simp only [h1, hce, List.drop_left, Bool.false_eq_true, if_false, ho2, hve,
    Bool.not_false, Bool.and_true, if_true]

theorem whMatchAnchored_one {c : List Char} {o1 v0 : Char} {v1 : List Char}
    (hc : c ≠ []) (hcf : ∀ x ∈ c, isOpChar x = false)
    (ho1 : isOpChar o1 = true) (hv0 : isOpChar v0 = false) :
    whMatchAnchored (c ++ o1 :: v0 :: v1) = some (c, [o1], v0 :: v1) := by
  have h1 : (c ++ o1 :: v0 :: v1).takeWhile (fun ch => !(isOpChar ch)) = c :=
    takeWhile_stop (fun x hx => by simp [hcf x hx]) (by simp [ho1])
  have hce : c.isEmpty = false := by
    cases c with
    | nil => exact absurd rfl hc
    | cons a t => rfl
  unfold whMatchAnchored
  simp only [h1, hce, List.drop_left, Bool.false_eq_true, if_false, hv0,
    Bool.false_and, if_true]

theorem whSearch_of_anchored {c rest : List Char}
    {res : List Char × List Char × List Char} (hc : c ≠ [])
    (h : whMatchAnchored (c ++ rest) = some res) :
    whSearch (c ++ rest) = some res := by
  obtain ⟨a, t, rfl⟩ := List.exists_cons_of_ne_nil hc
  rw [List.cons_append] at h ⊢
  rw [whSearch, h]

/-- Claim C2, counterexample: the tilde operator compiles to a
case-insensitive ilike, but bang-tilde compiles to notlike, the negation
of the case-sensitive match: the row JOHN satisfies the compiled
name!~john condition even though it also satisfies the case-insensitive
substring match whose negation the claim promises. -/
theorem notlike_case_sensitivity_counterexample :
    parseWhere "name!~john" = some (.notlike "name" "%john%") ∧
    evalCond [("name", "JOHN")] (WhereCond.notlike "name" "%john%") = true ∧
    evalCond [("name", "JOHN")] (WhereCond.ilike "name" "%john%") = true := by
  decide

/-- Claim C2, amended: the condition grammar splits an expression at the
first operator occurrence, taking two operator characters over one when a
value still remains, so age>=30 parses to (age, gte, 30); tilde compiles
to the case-insensitive substring match on the percent-wrapped value,
while bang-tilde compiles to notlike on the percent-wrapped value, the
negation of the case-sensitive substring match rather than of the
case-insensitive one. -/
theorem condition_grammar_amended (c o v : List Char) (v0 : Char) (v1 : List Char)
    (hc : c ≠ []) (hcf : ∀ x ∈ c, isOpChar x = false) :
    (o ∈ [['=', '='], ['>', '='], ['<', '='], ['!', '='], ['!', '~']] → v ≠ [] →
      whSearch (c ++ o ++ v) = some (c, o, v)) ∧
    (o ∈ [['='], ['>'], ['<'], ['~']] → isOpChar v0 = false →
      whSearch (c ++ o ++ (v0 :: v1)) = some (c, o, v0 :: v1)) ∧
    parseWhere "age>=30" = some (WhereCond.ge "age" "30") ∧
    (isOpChar v0 = false →
      parseWhereChars (c ++ ['~'] ++ (v0 :: v1))
        = some (WhereCond.ilike (String.mk c) ("%" ++ String.mk (v0 :: v1) ++ "%"))) ∧
    (v ≠ [] →
      parseWhereChars (c ++ ['!', '~'] ++ v)
        = some (WhereCond.notlike (String.mk c) ("%" ++ String.mk v ++ "%"))) := by
  refine ⟨fun ho hv => ?_, fun ho hv0 => ?_, by decide, fun hv0 => ?_, fun hv => ?_⟩
  · rw [List.append_assoc]
    simp only [List.mem_cons, List.mem_singleton] at ho
    rcases ho with rfl | rfl | rfl | rfl | rfl | h
    · exact whSearch_of_anchored hc (whMatchAnchored_two hc hcf rfl rfl hv)
    · exact whSearch_of_anchored hc (whMatchAnchored_two hc hcf rfl rfl hv)
    · exact whSearch_of_anchored hc (whMatchAnchored_two hc hcf rfl rfl hv)
    · exact whSearch_of_anchored hc (whMatchAnchored_two hc hcf rfl rfl hv)
    · exact whSearch_of_anchored hc (whMatchAnchored_two hc hcf rfl rfl hv)
    · simp at h
  · rw [List.append_assoc]
    simp only [List.mem_cons, List.mem_singleton] at ho
    rcases ho with rfl | rfl | rfl | rfl | h
    · exact whSearch_of_anchored hc (whMatchAnchored_one hc hcf rfl hv0)
    · exact whSearch_of_anchored hc (whMatchAnchored_one hc hcf rfl hv0)
    · exact whSearch_of_anchored hc (whMatchAnchored_one hc hcf rfl hv0)
    · exact whSearch_of_anchored hc (whMatchAnchored_one hc hcf rfl hv0)
    · simp at h
  · have hs : whSearch (c ++ ['~'] ++ (v0 :: v1)) = some (c, ['~'], v0 :: v1) := by
      rw [List.append_assoc]
      exact whSearch_of_anchored hc (whMatchAnchored_one hc hcf rfl hv0)
    unfold parseWhereChars
    rw [hs]
    rfl
  · obtain ⟨w0, w1, rfl⟩ := List.exists_cons_of_ne_nil hv
    have hs : whSearch (c ++ ['!', '~'] ++ (w0 :: w1))
        = some (c, ['!', '~'], w0 :: w1) := by
      rw [List.append_assoc]
      exact whSearch_of_anchored hc (whMatchAnchored_two hc hcf rfl rfl (by simp))
    unfold parseWhereChars
    rw [hs]
    rfl

theorem condition_grammar_amended_witness :
    whSearch ("age" ++ ">=" ++ "30").data = some ("age".data, ">=".data, "30".data) ∧
    whSearch ("age" ++ ">" ++ "30").data = some ("age".data, ">".data, "30".data) ∧
    parseWhereChars ("name" ++ "~" ++ "john").data
      = some (WhereCond.ilike "name" "%john%") ∧
    parseWhereChars ("name" ++ "!~" ++ "john").data
      = some (WhereCond.notlike "name" "%john%") := by
  have h := condition_grammar_amended "age".data ">=".data "30".data '3' "0".data
    (by decide) (by decide)
  have h2 := condition_grammar_amended "age".data ">".data "30".data '3' "0".data
    (by decide) (by decide)
  have h3 := condition_grammar_amended "name".data "~".data "john".data 'j' "ohn".data
    (by decide) (by decide)
  have h4 := condition_grammar_amended "name".data "!~".data "john".data 'j' "ohn".data
    (by decide) (by decide)
  refine ⟨?_, ?_, ?_, ?_⟩
  · exact (h.1 (by decide) (by decide)).trans (by decide)
  · exact (h2.2.1 (by decide) (by decide)).trans (by decide)
  · exact ((h3.2.2.2.1 (by decide)).trans (by decide))
  · exact ((h4.2.2.2.2 (by decide)).trans (by decide))

/-! ## Grammar lemmas for the aggregate pattern -/

/-- An ASCII letter, the "function name of letters only" of the spec. -/
def isAsciiLetter (ch : Char) : Bool :=
  (decide ('a' ≤ ch) && decide (ch ≤ 'z')) || (decide ('A' ≤ ch) && decide (ch ≤ 'Z'))

theorem fn_of_letter {ch : Char} (h : isAsciiLetter ch = true) : isFnChar ch = true := by
  simp only [isAsciiLetter, Bool.or_eq_true, Bool.and_eq_true, decide_eq_true_eq] at h
  simp only [isFnChar, Bool.or_eq_true, Bool.and_eq_true, decide_eq_true_eq, beq_iff_eq]
  rcases h with ⟨h1, h2⟩ | ⟨h1, h2⟩
  · exact Or.inl (Or.inr ⟨le_trans (by decide) h1, h2⟩)
  · exact Or.inl (Or.inr ⟨h1, le_trans h2 (by decide)⟩)

theorem lastParenIdx_append (C : List Char) (h : ∀ x ∈ C, x ≠ ')') :
    lastParenIdx (C ++ [')']) = some C.length := by
  induction C with
  | nil => rfl
  | cons a t ih =>
    have ht := ih (fun x hx => h x (by simp [hx]))
    simp [List.cons_append, lastParenIdx, ht]

theorem aggMatchAnchored_full (A F C : List Char)
    (hA : A ≠ []) (hAc : ∀ x ∈ A, x ≠ ':')
    (hF : F ≠ []) (hFf : ∀ x ∈ F, isFnChar x = true)
    (hC : C ≠ []) (hCc : ∀ x ∈ C, x ≠ ':') (hCp : ∀ x ∈ C, x ≠ ')') :
    aggMatchAnchored (A ++ ':' :: (F ++ '(' :: (C ++ [')']))) = some (A, F, C) := by
  have h1 : (A ++ ':' :: (F ++ '(' :: (C ++ [')']))).takeWhile (fun ch => !(ch == ':')) = A :=
    takeWhile_stop (fun x hx => by simp [hAc x hx]) (by simp)
  have hAe : A.isEmpty = false := by
    cases A with
    | nil => exact absurd rfl hA
    | cons a t => rfl
  have h3 : (F ++ '(' :: (C ++ [')'])).takeWhile isFnChar = F :=
    takeWhile_stop hFf (by decide)
  have hFe : F.isEmpty = false := by
    cases F with
    | nil => exact absurd rfl hF
    | cons a t => rfl
  have h5 : (C ++ [')']).takeWhile (fun ch => !(ch == ':')) = C ++ [')'] := by
    refine takeWhile_all ?_
    intro x hx
    rcases List.mem_append.1 hx with hx1 | hx2
    · simp [hCc x hx1]
    · rw [List.mem_singleton] at hx2
      subst hx2
      rfl
  have h6 : lastParenIdx (C ++ [')']) = some C.length := lastParenIdx_append C hCp
  have h7 : (C ++ [')']).take C.length = C := List.take_left C [')']
  have hlen : 1 ≤ C.length := List.length_pos.2 hC
  unfold aggMatchAnchored
  simp only [h1, hAe, Bool.false_eq_true, if_false, List.drop_left, beq_self_eq_true,
    if_true, h3, hFe, h5, h6, h7, hlen, ite_true]

theorem aggSearch_of_anchored {c rest : List Char}
    {res : List Char × List Char × List Char} (hc : c ≠ [])
    (h : aggMatchAnchored (c ++ rest) = some res) :
    aggSearch (c ++ rest) = some res := by
  obtain ⟨a, t, rfl⟩ := List.exists_cons_of_ne_nil hc
  rw [List.cons_append] at h ⊢
  rw [aggSearch, h]

/-- Claim C8: an aggregate expression alias:function(column), with a
non-empty colon-free alias, a non-empty function name of letters only and
a non-empty column without colon or closing parenthesis, parses to the
triple (alias, function, column); nunique compiles to the count of the
distinct column values, every other supported function to its aggregate,
and an unsupported function name fails compilation with the KeyError of
the safuncs lookup. -/
theorem aggregate_grammar (A F C : List Char) (colsT : List String)
    (name fn col : String)
    (hA : A ≠ []) (hAc : ∀ x ∈ A, x ≠ ':')
    (hF : F ≠ []) (hFl : ∀ x ∈ F, isAsciiLetter x = true)
    (hC : C ≠ []) (hCc : ∀ x ∈ C, x ≠ ':') (hCp : ∀ x ∈ C, x ≠ ')') :
    aggSearch (A ++ ':' :: (F ++ '(' :: (C ++ [')']))) = some (A, F, C) ∧
    parseAgg "total:sum(amount)" = some ("total", "sum", "amount") ∧
    (colsT.contains col = true →
      compileAggMatch colsT name "nunique" col = .ok (SACol.aggCountDistinct col name)) ∧
    (colsT.contains col = true → fn ∈ ["min", "max", "sum", "count", "mean"] →
      compileAggMatch colsT name fn col = .ok (SACol.aggFn fn col name)) ∧
    (safuncs.contains fn = false →
      compileAggMatch colsT name fn col = .error ("KeyError: " ++ fn)) := by
  refine ⟨?_, by decide, fun hcol => ?_, fun hcol hm => ?_, fun hsf => ?_⟩
  · exact aggSearch_of_anchored hA
      (aggMatchAnchored_full A F C hA hAc hF (fun x hx => fn_of_letter (hFl x hx)) hC hCc hCp)
  · unfold compileAggMatch
    rw [if_pos rfl, if_pos hcol]
  · simp only [List.mem_cons, List.mem_singleton] at hm
    rcases hm with rfl | rfl | rfl | rfl | rfl | h
    · unfold compileAggMatch
      rw [if_neg (by decide), if_pos (by decide), if_pos hcol]
    · unfold compileAggMatch
      rw [if_neg (by decide), if_pos (by decide), if_pos hcol]
    · unfold compileAggMatch
      rw [if_neg (by decide), if_pos (by decide), if_pos hcol]
    · unfold compileAggMatch
      rw [if_neg (by decide), if_pos (by decide), if_pos hcol]
    · unfold compileAggMatch
      rw [if_neg (by decide), if_pos (by decide), if_pos hcol]
    · simp at h
  · have hnu : fn ≠ "nunique" := by
      rintro rfl
      simp [safuncs] at hsf
    unfold compileAggMatch
    rw [if_neg hnu, if_neg (by rw [hsf]; decide)]

theorem aggregate_grammar_witness :
    aggSearch ("total".data ++ ':' :: ("sum".data ++ '(' :: ("amount".data ++ [')'])))
      = some ("total".data, "sum".data, "amount".data) ∧
    compileAggMatch ["amount"] "total" "nunique" "amount"
      = .ok (SACol.aggCountDistinct "amount" "total") ∧
    compileAggMatch ["amount"] "total" "sum" "amount"
      = .ok (SACol.aggFn "sum" "amount" "total") ∧
    compileAggMatch ["amount"] "total" "median" "amount"
      = .error ("KeyError: " ++ "median") := by
  have h := aggregate_grammar "total".data "sum".data "amount".data ["amount"]
    "total" "sum" "amount" (by decide) (by decide) (by decide) (by decide)
    (by decide) (by decide) (by decide)
  have h2 := aggregate_grammar "total".data "sum".data "amount".data ["amount"]
    "total" "median" "amount" (by decide) (by decide) (by decide) (by decide)
    (by decide) (by decide) (by decide)
  exact ⟨h.1, h.2.2.1 (by decide), h.2.2.2.1 (by decide) (by decide),
    h2.2.2.2.2 (by decide)⟩

/-- Claim C3: when groups, aggs and selects are all truthy, the compiled
grouped query projects the group columns plus the compiled aggregate
columns filtered down to the keys present in the select list, and groups
by all group columns. -/
theorem grouped_projection_postfilter (colsT sel gl al : List String)
    (wl : Option (List String)) (off lim : Option String)
    (sl : Option (List String)) (conds : List WhereCond)
    (grps aggcols : List SACol)
    (hsel : sel ≠ []) (hgl : gl ≠ []) (hal : al ≠ [])
    (hw : (if pyTruthy wl then sqlalchemy_wheres colsT (wl.getD []) else Except.ok [])
      = .ok conds)
    (hg : compileGroups colsT gl = .ok grps)
    (ha : compileAggList colsT al = .ok aggcols) :
    sqlalchemy_compile colsT (some sel) wl (some gl) (some al) off lim sl
      = .ok { projection := (grps ++ aggcols).filter (fun c => sel.contains (saKey c)),
              whereConds := conds, groupByCols := gl,
              orderByCols := compileSorts sl,
              offsetVal := if pyTruthyStr off then off else none,
              limitVal := if pyTruthyStr lim then lim else none } := by
  have hg' : pyTruthy (some gl) = true := (pyTruthy_some_iff gl).2 hgl
  have ha' : pyTruthy (some al) = true := (pyTruthy_some_iff al).2 hal
  have hs' : pyTruthy (some sel) = true := (pyTruthy_some_iff sel).2 hsel
  unfold sqlalchemy_compile
  rw [hw]
  simp only [hg', ha', hs', Bool.and_self, if_true, Option.getD_some, hg, ha]

theorem grouped_projection_postfilter_witness :
    sqlalchemy_compile ["region", "amount"] (some ["region"]) none
      (some ["region"]) (some ["total:sum(amount)"]) none none none
      = .ok { projection := [SACol.plain "region"], whereConds := [],
              groupByCols := ["region"], orderByCols := [],
              offsetVal := none, limitVal := none } := by
  have h := grouped_projection_postfilter ["region", "amount"] ["region"]
    ["region"] ["total:sum(amount)"] none none none none []
    [SACol.plain "region"] [SACol.aggFn "sum" "amount" "total"]
    (by decide) (by decide) (by decide) rfl (by decide) (by decide)
  exact h.trans (by decide)

/-- An expression list none of whose members matches the where pattern
compiles to the empty conjunction. -/
theorem wheres_nil_of_unparsable (colsT : List String) (ws : List String)
    (h : ∀ w ∈ ws, whSearch w.data = none) :
    sqlalchemy_wheres colsT ws = .ok [] := by
  induction ws with
  | nil => rfl
  | cons w t ih =>
    have hw := h w (by simp)
    simp only [sqlalchemy_wheres, hw]
    exact ih (fun x hx => h x (by simp [hx]))

/-- Claim C9: a non-empty where list whose members all fail the condition
grammar compiles to the conjunction of zero conditions, which holds of
every row, so a delete with such a clause passes the non-empty-where
precondition and removes every row, and a put with such a clause updates
every row. -/
theorem trivial_filter_mutation (t : Table) (ws vals : List String)
    (content : List (String × String))
    (hws : ws ≠ []) (hun : ∀ w ∈ ws, whSearch w.data = none)
    (hv : vals ≠ []) (hcontent : buildContent [] vals = some content)
    (hcols : content.all (fun p => t.cols.contains p.1) = true) :
    sqlalchemy_wheres t.cols ws = .ok [] ∧
    sqlalchemy_delete (some ws) t = (none, ⟨t.cols, []⟩) ∧
    sqlalchemy_put vals (some ws) t
      = (none, ⟨t.cols, t.rows.map (applyContentUpdate content)⟩) := by
  have h0 := wheres_nil_of_unparsable t.cols ws hun
  have htr : pyTruthy (some ws) = true := (pyTruthy_some_iff ws).2 hws
  refine ⟨h0, ?_, ?_⟩
  · unfold sqlalchemy_delete
    rw [if_neg (by rw [htr]; decide)]
    simp only [Option.getD_some, h0, List.all_nil, Bool.not_true, List.filter_false]
  · unfold sqlalchemy_put
    rw [if_neg hv, if_neg (by rw [htr]; decide), hcontent]
    simp only [Option.getD_some, h0, List.all_nil, if_true, hcols]

theorem trivial_filter_mutation_witness :
    sqlalchemy_delete (some ["oops"]) ⟨["age"], [[("age", "1")], [("age", "2")]]⟩
      = (none, ⟨["age"], []⟩) ∧
    sqlalchemy_put ["age=9"] (some ["oops"]) ⟨["age"], [[("age", "1")], [("age", "2")]]⟩
      = (none, ⟨["age"], [[("age", "9")], [("age", "9")]]⟩) := by
  have h := trivial_filter_mutation ⟨["age"], [[("age", "1")], [("age", "2")]]⟩
    ["oops"] ["age=9"] [("age", "9")] (by decide) (by decide) (by decide)
    (by decide) (by decide)
  exact ⟨h.2.1, h.2.2.trans (by decide)⟩

end DataHandler
